import Mathlib

/-!
Verification of the workflow execution engine (graph validation + dynamic
dispatch + execution loop) against its natural-language specification.

The engine is shallowly embedded: Python values that can appear in a
workflow description are modelled by `PyVal`; Python exceptions raised by
the engine are modelled by `PyErr`; fallible operations return
`Except PyErr _`.  The embedding is translated from the engine's source:
`Workflow._validate_workflow`, `Workflow.__init__`, `Workflow._get_skill_map`,
`Workflow._validate_next`, `Workflow.execute`, and `Search_Skill`.
-/

/-- Model of the Python values that can appear in a workflow description:
`None`, `int`, `bool`, `str`, `list`, and string-keyed `dict`
(all dict keys occurring in the engine's data are strings). -/
inductive PyVal where
  | none : PyVal
  | int (n : Int) : PyVal
  | bool (b : Bool) : PyVal
  | str (s : String) : PyVal
  | list (xs : List PyVal) : PyVal
  | dict (kvs : List (String × PyVal)) : PyVal
deriving Repr

/-- Model of the Python exceptions the engine raises or propagates,
distinguished (as in the source) by exception class and message. -/
inductive PyErr where
  | valueError (msg : String) : PyErr
  | typeError (msg : String) : PyErr
  | keyError (msg : String) : PyErr
  | importError (msg : String) : PyErr
deriving Repr, DecidableEq

/-- Python `==` on the modelled values.  `True == 1` and `False == 0`
because `bool` is a subclass of `int` in Python; values of unrelated
types compare unequal; lists compare elementwise.  (Dicts are compared
by their key-value lists in order; the engine never compares dicts, as
node ids and outputs entries are ints, bools or `None`.) -/
def pyEq : PyVal → PyVal → Bool
  | .none, .none => true
  | .int a, .int b => a == b
  | .int a, .bool b => a == (if b then (1 : Int) else 0)
  | .bool a, .int b => (if a then (1 : Int) else 0) == b
  | .bool a, .bool b => a == b
  | .str a, .str b => a == b
  | .list as, .list bs => pyEqList as bs
  | .dict as, .dict bs => pyEqKVs as bs
  | _, _ => false
where
  pyEqList : List PyVal → List PyVal → Bool
    | [], [] => true
    | a :: as, b :: bs => pyEq a b && pyEqList as bs
    | _, _ => false
  pyEqKVs : List (String × PyVal) → List (String × PyVal) → Bool
    | [], [] => true
    | (k1, v1) :: as, (k2, v2) :: bs => k1 == k2 && pyEq v1 v2 && pyEqKVs as bs
    | _, _ => false

/-- Python `isinstance(v, str)`. -/
def isInstStr : PyVal → Bool
  | .str _ => true
  | _ => false

/-- Python `isinstance(v, int)`: `bool` is a subclass of `int`, so
booleans satisfy this check. -/
def isInstInt : PyVal → Bool
  | .int _ => true
  | .bool _ => true
  | _ => false

/-- Python `isinstance(v, list)`. -/
def isInstList : PyVal → Bool
  | .list _ => true
  | _ => false

/-- Python `isinstance(v, dict)`. -/
def isInstDict : PyVal → Bool
  | .dict _ => true
  | _ => false

/-- Python `v is None`. -/
def pyIsNone : PyVal → Bool
  | .none => true
  | _ => false

/-- The name Python reports for the type of a value. -/
def pyTypeName : PyVal → String
  | .none => "NoneType"
  | .int _ => "int"
  | .bool _ => "bool"
  | .str _ => "str"
  | .list _ => "list"
  | .dict _ => "dict"

/-- Python `str(v)` for the scalar values that can reach the engine's
f-string error messages (the loop's current node id is always an int or a
bool there); compound values render as their type name. -/
def pyStr : PyVal → String
  | .none => "None"
  | .int n => toString n
  | .bool b => if b then "True" else "False"
  | .str s => s
  | .list _ => "list"
  | .dict _ => "dict"

/-- First binding of a key in a dict's key-value list. -/
def lookupKV (kvs : List (String × PyVal)) (k : String) : Option PyVal :=
  match kvs with
  | [] => Option.none
  | (k2, v) :: rest => if k2 == k then some v else lookupKV rest k

/-- Whether the character list `needle` is a prefix of `hay`. -/
def charsPrefix : List Char → List Char → Bool
  | [], _ => true
  | _ :: _, [] => false
  | a :: as, b :: bs => a == b && charsPrefix as bs

/-- Whether the character list `needle` occurs contiguously in `hay`
(Python substring containment). -/
def charsInfix (needle : List Char) : List Char → Bool
  | [] => charsPrefix needle []
  | b :: bs => charsPrefix needle (b :: bs) || charsInfix needle bs

/-- Python `x in container`: key containment for dicts, `==`-membership
for lists, substring test for strings; iterating an int, bool or `None`
raises `TypeError`, as does using an unhashable key on a dict. -/
def pyInVal (x : PyVal) (container : PyVal) : Except PyErr Bool :=
  match container with
  | .dict kvs =>
    match x with
    | .str k => .ok (kvs.any (fun kv => kv.1 == k))
    | .list _ => .error (.typeError "unhashable type: 'list'")
    | .dict _ => .error (.typeError "unhashable type: 'dict'")
    | _ => .ok false
  | .list xs => .ok (xs.any (fun e => pyEq x e))
  | .str s =>
    match x with
    | .str n => .ok (charsInfix n.toList s.toList)
    | _ => .error (.typeError "'in <string>' requires string as left operand")
  | other => .error (.typeError ("argument of type '" ++ pyTypeName other ++ "' is not iterable"))

/-- Python `key in container` for a string literal key. -/
def pyKeyIn (key : String) (container : PyVal) : Except PyErr Bool :=
  pyInVal (.str key) container

/-- Python `container[key]` for a string key: dict lookup (raising
`KeyError` when absent), `TypeError` on every other container type. -/
def pyGetStr (container : PyVal) (key : String) : Except PyErr PyVal :=
  match container with
  | .dict kvs =>
    match lookupKV kvs key with
    | some v => .ok v
    | Option.none => .error (.keyError key)
  | .list _ => .error (.typeError "list indices must be integers or slices, not str")
  | .str _ => .error (.typeError "string indices must be integers")
  | other => .error (.typeError ("'" ++ pyTypeName other ++ "' object is not subscriptable"))

/-- Total variant of dict access: the value bound to `key`, or `None`
when the container is not a dict or lacks the key.  Used only where the
engine has already validated the container (e.g. field extraction after
`_validate_workflow` succeeded), where it agrees with `pyGetStr`. -/
def pyGetD (container : PyVal) (key : String) : PyVal :=
  match container with
  | .dict kvs => (lookupKV kvs key).getD .none
  | _ => .none

/-- The element list of a value already checked to be a list. -/
def pyListElems : PyVal → List PyVal
  | .list xs => xs
  | _ => []

/-- Python `x in xs` for a list of values (`==`-membership). -/
def pyMem (x : PyVal) (xs : List PyVal) : Bool :=
  xs.any (fun e => pyEq x e)

/-- Membership of `x` in a value that should be a list (used for the
declared `outputs` of a node); `false` on non-lists. -/
def pyMemD (x : PyVal) (v : PyVal) : Bool :=
  match v with
  | .list xs => xs.any (fun e => pyEq x e)
  | _ => false

/-- Whether a list of values contains two `==`-equal entries; mirrors the
source's `len(set(node_ids)) != len(node_ids)` test (the set collapses
exactly the `==`-equal ids, `==` being an equivalence on them). -/
def pyHasDup : List PyVal → Bool
  | [] => false
  | x :: xs => xs.any (fun e => pyEq x e) || pyHasDup xs

/-- Per-node validation loop body of `Workflow._validate_workflow`
(lines 37-61): required node keys, field shapes, `inputs` items all
integers, `outputs` items integers or `None`; returns `node["id"]`,
the value appended to `node_ids` in the source. -/
def validateNode (node : PyVal) : Except PyErr PyVal := do
  let k1 ← pyKeyIn "id" node
  if !k1 then throw (.valueError "Missing required node field: id")
  let k2 ← pyKeyIn "type" node
  if !k2 then throw (.valueError "Missing required node field: type")
  let k3 ← pyKeyIn "inputs" node
  if !k3 then throw (.valueError "Missing required node field: inputs")
  let k4 ← pyKeyIn "outputs" node
  if !k4 then throw (.valueError "Missing required node field: outputs")
  let k5 ← pyKeyIn "params" node
  if !k5 then throw (.valueError "Missing required node field: params")
  let idv ← pyGetStr node "id"
  if !(isInstInt idv) then throw (.typeError "node id must be an integer")
  let tyv ← pyGetStr node "type"
  if !(isInstStr tyv) then throw (.typeError "node type must be a string")
  let inv ← pyGetStr node "inputs"
  if !(isInstList inv) then throw (.typeError "node inputs must be a list")
  let outv ← pyGetStr node "outputs"
  if !(isInstList outv) then throw (.typeError "node outputs must be a list")
  let pv ← pyGetStr node "params"
  if !(isInstDict pv) then throw (.typeError "node params must be a dict")
  if !((pyListElems inv).all isInstInt) then
    throw (.typeError "node inputs items must be integers")
  if !((pyListElems outv).all (fun v => pyIsNone v || isInstInt v)) then
    throw (.typeError "node outputs items must be integers or None")
  return idv

/-- The per-node loop of `Workflow._validate_workflow`: validates the
nodes in declaration order and collects their ids (`node_ids`). -/
def validateNodes : List PyVal → Except PyErr (List PyVal)
  | [] => .ok []
  | n :: rest => do
    let i ← validateNode n
    let is ← validateNodes rest
    return (i :: is)

/-- Top-level checks of `Workflow._validate_workflow` (lines 23-35):
required keys `workflow_id`, `entry`, `nodes`; their shapes; `meta` a
dict when present.  Returns the `entry` and `nodes` values. -/
def validateTop (data : PyVal) : Except PyErr (PyVal × PyVal) := do
  let k1 ← pyKeyIn "workflow_id" data
  if !k1 then throw (.valueError "Missing required field: workflow_id")
  let k2 ← pyKeyIn "entry" data
  if !k2 then throw (.valueError "Missing required field: entry")
  let k3 ← pyKeyIn "nodes" data
  if !k3 then throw (.valueError "Missing required field: nodes")
  let wid ← pyGetStr data "workflow_id"
  if !(isInstStr wid) then throw (.typeError "workflow_id must be a string")
  let ev ← pyGetStr data "entry"
  if !(isInstInt ev) then throw (.typeError "entry must be an integer")
  let nv ← pyGetStr data "nodes"
  if !(isInstList nv) then throw (.typeError "nodes must be a list")
  let km ← pyKeyIn "meta" data
  if km then do
    let mv ← pyGetStr data "meta"
    if !(isInstDict mv) then throw (.typeError "meta must be a dict")
  return (ev, nv)

/-- The method `Workflow._validate_workflow`: top-level checks, per-node checks in
order, node-id uniqueness, and the entry-membership check, raising at
the first violation. -/
def validateWorkflow (data : PyVal) : Except PyErr Unit := do
  let (ev, nv) ← validateTop data
  let ids ← validateNodes (pyListElems nv)
  if pyHasDup ids then throw (.valueError "node ids must be unique")
  if !(pyMem ev ids) then throw (.valueError "entry must reference an existing node id")
  return ()

/-- The validated in-memory workflow built by `Workflow.__init__`:
`_workflow_id`, `_entry`, `_nodes`, `_meta` (`_node_map` is derived from
`nodes` on demand below, as the source derives it from `self._nodes`). -/
structure Workflow where
  workflow_id : PyVal
  entry : PyVal
  nodes : List PyVal
  meta : PyVal
deriving Repr

/-- The constructor `Workflow.__init__`: validate the description, then store its
fields (`data["workflow_id"]`, `data["entry"]`, `data["nodes"]`,
`data.get("meta", {})`).  No skill is resolved here: resolution happens
only in `get_skills` / `_get_skill_map`, which require the constructed
workflow, so a failing construction can never reach a plugin lookup or
an `execute` call. -/
def mkWorkflow (data : PyVal) : Except PyErr Workflow :=
  match validateWorkflow data with
  | .error e => .error e
  | .ok _ =>
    .ok { workflow_id := pyGetD data "workflow_id"
          entry := pyGetD data "entry"
          nodes := pyListElems (pyGetD data "nodes")
          meta := match data with
                  | .dict kvs => (lookupKV kvs "meta").getD (.dict [])
                  | _ => .dict [] }

/-- The node ids, in declaration order: the key list of the source's
`_node_map` and `_skill_map` (both are keyed by `node["id"]`). -/
def nodeIds (wf : Workflow) : List PyVal :=
  wf.nodes.map (fun n => pyGetD n "id")

/-- Lookup in the derived `_node_map` (id → node definition), with dict
keys compared by Python `==`.  Validated workflows have pairwise
`==`-distinct ids, so the first match is the unique one. -/
def lookupNode (wf : Workflow) (cur : PyVal) : Option PyVal :=
  wf.nodes.find? (fun n => pyEq cur (pyGetD n "id"))

/-- The node definition for `cur`, defaulting to `None` when absent. -/
def lookupNodeD (wf : Workflow) (cur : PyVal) : PyVal :=
  (lookupNode wf cur).getD .none

/-- The declared `outputs` value of the node `cur` (defaulting to `None`
when the node is absent; validated nodes always carry a list here). -/
def outputsOf (wf : Workflow) (cur : PyVal) : PyVal :=
  pyGetD (lookupNodeD wf cur) "outputs"

/-- The method `Workflow._validate_next`: fetch `self._node_map[current_id]["outputs"]`,
then require `None ∈ outputs` when `next_id is None` and
`next_id ∈ outputs` otherwise, raising `ValueError` (the spec's
`InvalidTransitionError`) on failure. -/
def validateNext (wf : Workflow) (cur nxt : PyVal) : Except PyErr Unit := do
  match lookupNode wf cur with
  | Option.none => throw (.keyError (pyStr cur))
  | some node => do
    let outs ← pyGetStr node "outputs"
    if pyIsNone nxt then do
      let mem ← pyInVal nxt outs
      if !mem then throw (.valueError "next_id is None but outputs has no None marker")
      return ()
    else do
      let mem ← pyInVal nxt outs
      if !mem then throw (.valueError "next_id not found in current node outputs")
      return ()

/-- The `InvalidTransitionError` that `_validate_next` raises for a
rejected candidate `nxt` (the message depends on whether `nxt` is the
null sentinel). -/
def invTransErr (nxt : PyVal) : PyErr :=
  if pyIsNone nxt then .valueError "next_id is None but outputs has no None marker"
  else .valueError "next_id not found in current node outputs"

/-- Lookup in a skill map (id → skill instance) with keys compared by
Python `==`, mirroring access to the source's `_skill_map` dict. -/
def skillLookup {σ : Type} (m : List (PyVal × σ)) (cur : PyVal) : Option σ :=
  match m.find? (fun kv => pyEq cur kv.1) with
  | some kv => some kv.2
  | Option.none => Option.none

/-- The skill map `_get_skill_map` builds on first use:
`{node["id"]: Search_Skill(node["type"], node) for node in self._nodes}`,
with the resolved skill abstracted by the function `skillOf` of the node
definition (a skill instance is modelled by its `execute` method,
`context → (return value, context)`). -/
def mkSkillMap {Ctx : Type} (wf : Workflow) (skillOf : PyVal → Ctx → PyVal × Ctx) :
    List (PyVal × (Ctx → PyVal × Ctx)) :=
  wf.nodes.map (fun n => (pyGetD n "id", skillOf n))

/-- Outcome of running the execution loop with a given amount of fuel:
normal return, a raised exception, or fuel exhaustion (the loop itself
is unbounded; `fuelOut` is a model artifact, not a program outcome). -/
inductive ExecOutcome where
  | ok : ExecOutcome
  | err (e : PyErr) : ExecOutcome
  | fuelOut : ExecOutcome
deriving Repr

/-- The body of `Workflow.execute` from a given current node id, with
fuel bounding the number of iterations.  Returns the list of node ids
whose skill's `execute` was invoked (in order) together with the
outcome.  Mirrors the source loop: unknown-node check against the skill
map, skill invocation, the `None` return path (validate, return), the
return-type check, transition validation, and the move to `next_id`. -/
def executeFrom {Ctx : Type} (wf : Workflow) (smap : List (PyVal × (Ctx → PyVal × Ctx))) :
    Nat → PyVal → Ctx → List PyVal × ExecOutcome
  | 0, _, _ => ([], .fuelOut)
  | fuel + 1, cur, ctx =>
    match skillLookup smap cur with
    | Option.none => ([], .err (.valueError ("Unknown node id: " ++ pyStr cur)))
    | some sk =>
      let r := sk ctx
      if pyIsNone r.1 then
        match validateNext wf cur r.1 with
        | .error e => ([cur], .err e)
        | .ok _ => ([cur], .ok)
      else if !(isInstInt r.1) then
        ([cur], .err (.typeError "execute must return an integer node id or None"))
      else
        match validateNext wf cur r.1 with
        | .error e => ([cur], .err e)
        | .ok _ =>
          let rest := executeFrom wf smap fuel r.1 r.2
          (cur :: rest.1, rest.2)

/-- The method `Workflow.execute`: build the skill map and run the loop from
`self._entry`. -/
def execute {Ctx : Type} (wf : Workflow) (skillOf : PyVal → Ctx → PyVal × Ctx)
    (fuel : Nat) (ctx : Ctx) : List PyVal × ExecOutcome :=
  executeFrom wf (mkSkillMap wf skillOf) fuel wf.entry ctx

/-! ## Basic lemmas about the Python-value model -/

/-- A boolean compares `==`-equal to exactly the values its integer
coercion (`True` ↦ 1, `False` ↦ 0) compares equal to. -/
theorem pyEq_bool_int (b : Bool) (x : PyVal) :
    pyEq (.bool b) x = pyEq (.int (if b then 1 else 0)) x := by
  cases x with
  | int n => cases b <;> rfl
  | bool c => cases b <;> cases c <;> decide
  | none => rfl
  | str s => rfl
  | list xs => rfl
  | dict kvs => rfl

/-- A value satisfying `isinstance(·, int)` never compares equal to the
null sentinel. -/
theorem pyEq_intlike_none {a : PyVal} (ha : isInstInt a = true) :
    pyEq a .none = false := by
  cases a <;> simp [isInstInt] at ha <;> rfl

/-- The integer coercion of an integer-like value (int or bool). -/
def intOfIntlike : PyVal → Int
  | .int n => n
  | .bool b => if b then 1 else 0
  | _ => 0

/-- A value `==`-equal to an integer-like value is itself integer-like. -/
theorem pyEq_intlike_right {a b : PyVal} (ha : isInstInt a = true)
    (h : pyEq a b = true) : isInstInt b = true := by
  cases a <;> simp [isInstInt] at ha <;> cases b <;> simp [pyEq] at h <;> rfl

/-- Two integer-like values compare `==`-equal exactly when their
integer coercions are equal. -/
theorem pyEq_intlike_intlike {a b : PyVal} (ha : isInstInt a = true)
    (hb : isInstInt b = true) :
    pyEq a b = (intOfIntlike a == intOfIntlike b) := by
  cases a <;> simp [isInstInt] at ha <;> cases b <;>
    simp [isInstInt] at hb <;> simp [pyEq, intOfIntlike]
  rename_i b1 b2
  cases b1 <;> cases b2 <;> decide

/-- Restricted transitivity of Python `==`: through a chain starting at
an integer-like value (int or bool), equality is transitive, since such
values compare by their integer coercion. -/
theorem pyEq_trans_intlike {a b c : PyVal} (ha : isInstInt a = true)
    (h1 : pyEq a b = true) (h2 : pyEq b c = true) : pyEq a c = true := by
  have hb := pyEq_intlike_right ha h1
  have hc := pyEq_intlike_right hb h2
  rw [pyEq_intlike_intlike ha hb, beq_iff_eq] at h1
  rw [pyEq_intlike_intlike hb hc, beq_iff_eq] at h2
  rw [pyEq_intlike_intlike ha hc, beq_iff_eq, h1, h2]

/-- Key containment in a dict's key-value list is exactly success of
`lookupKV`. -/
theorem lookupKV_isSome (kvs : List (String × PyVal)) (k : String) :
    kvs.any (fun kv => kv.1 == k) = (lookupKV kvs k).isSome := by
  induction kvs with
  | nil => rfl
  | cons kv rest ih =>
    by_cases h : kv.1 == k <;> simp [lookupKV, h, ih]

/-- Inversion of a successful Python indexing by a string key: the
container is a dict and the key is bound to the returned value. -/
theorem pyGetStr_ok {c : PyVal} {k : String} {v : PyVal}
    (h : pyGetStr c k = .ok v) :
    ∃ kvs, c = .dict kvs ∧ lookupKV kvs k = some v := by
  cases c <;> simp [pyGetStr] at h
  case dict kvs =>
    cases hl : lookupKV kvs k with
    | none => rw [hl] at h; simp at h
    | some w => rw [hl] at h; simp at h; exact ⟨kvs, rfl, by rw [hl, h]⟩

/-- On containers where indexing succeeds, the defaulted access agrees
with it. -/
theorem pyGetD_of_getStr {c : PyVal} {k : String} {v : PyVal}
    (h : pyGetStr c k = .ok v) : pyGetD c k = v := by
  obtain ⟨kvs, rfl, hl⟩ := pyGetStr_ok h
  simp [pyGetD, hl]

/-- The engine's two `InvalidTransitionError` messages are never the
message of an `UnknownNodeError` (`"Unknown node id: " ++ _`). -/
theorem invalid_transition_msg_ne_unknown (nxt : PyVal) (s : String) :
    invTransErr nxt ≠ .valueError ("Unknown node id: " ++ s) := by
  have key : ∀ (p m : String), p.data.length = 17 →
      m.data.take 17 ≠ p.data → m ≠ p ++ s := by
    intro p m hp hne h
    apply hne
    have hd := congrArg String.data h
    rw [String.data_append] at hd
    rw [hd, ← hp, List.take_left]
  unfold invTransErr
  split <;> intro h <;> injection h with h <;> revert h
  · exact key _ _ (by decide) (by decide)
  · exact key _ _ (by decide) (by decide)

/-- The predicate "this exception is the loop's defensive
`UnknownNodeError`". -/
def IsUnknownNodeErr (e : PyErr) : Prop :=
  ∃ s, e = .valueError ("Unknown node id: " ++ s)

/-- An execution outcome that is not a raised `UnknownNodeError`. -/
def OutcomeNotUnknown : ExecOutcome → Prop
  | .err e => ¬ IsUnknownNodeErr e
  | _ => True

/-! ## Spec-side structural rules (the refinement side of C4)

These definitions follow the specification's words (its data model in
sections 3 and 6, and the construction-time validation rules in
section 4.3), not the source; they are compared against the source-side
validator. "Integer" is read as Python reads it: booleans are
integers. -/

/-- Spec-side shape rules for one Node Definition: a record with integer
`id`, string `type`, `inputs` a sequence of integers, `outputs` a
sequence whose entries are integers or the null sentinel, and `params` a
mapping. -/
def SpecNodeWF (n : PyVal) : Bool :=
  match n with
  | .dict kvs =>
    (match lookupKV kvs "id" with
     | some v => isInstInt v
     | Option.none => false) &&
    (match lookupKV kvs "type" with
     | some v => isInstStr v
     | Option.none => false) &&
    (match lookupKV kvs "inputs" with
     | some (.list xs) => xs.all isInstInt
     | _ => false) &&
    (match lookupKV kvs "outputs" with
     | some (.list xs) => xs.all (fun v => pyIsNone v || isInstInt v)
     | _ => false) &&
    (match lookupKV kvs "params" with
     | some (.dict _) => true
     | _ => false)
  | _ => false

/-- Spec-side structural rules for a whole workflow description:
required top-level keys with the right shapes (`workflow_id` string,
`entry` integer, `nodes` a sequence, `meta` a mapping when present),
every node well shaped, node ids pairwise distinct, and `entry` equal to
some declared node id. -/
def SpecWellFormed (data : PyVal) : Bool :=
  match data with
  | .dict kvs =>
    (match lookupKV kvs "workflow_id" with
     | some v => isInstStr v
     | Option.none => false) &&
    (match lookupKV kvs "entry" with
     | some v => isInstInt v
     | Option.none => false) &&
    (match lookupKV kvs "meta" with
     | some v => isInstDict v
     | Option.none => true) &&
    (match lookupKV kvs "nodes" with
     | some (.list ns) =>
       ns.all SpecNodeWF &&
       !(pyHasDup (ns.map (fun n => pyGetD n "id"))) &&
       pyMem ((lookupKV kvs "entry").getD .none) (ns.map (fun n => pyGetD n "id"))
     | _ => false)
  | _ => false

/-! ## Soundness of the source validator against the spec-side rules -/



/-- A node accepted by the source's per-node validation satisfies the
spec-side node shape rules, and the id it contributes to `node_ids` is
the node's `id` field. -/
theorem validateNode_sound {n i : PyVal} (h : validateNode n = .ok i) :
    SpecNodeWF n = true ∧ pyGetD n "id" = i := by
  cases n with
  | none => simp [validateNode, pyKeyIn, pyInVal, bind, Except.bind] at h
  | int m => simp [validateNode, pyKeyIn, pyInVal, bind, Except.bind] at h
  | bool b => simp [validateNode, pyKeyIn, pyInVal, bind, Except.bind] at h
  | str s =>
    simp only [validateNode, pyKeyIn, pyInVal, pyGetStr, bind, Except.bind,
      pure, Except.pure] at h
    repeat' split at h
    all_goals simp at h
  | list xs =>
    simp only [validateNode, pyKeyIn, pyInVal, pyGetStr, bind, Except.bind,
      pure, Except.pure] at h
    repeat' split at h
    all_goals simp at h
  | dict kvs =>
    simp only [validateNode, pyKeyIn, pyInVal, pyGetStr, bind, Except.bind,
      pure, Except.pure] at h
    rw [lookupKV_isSome kvs "id", lookupKV_isSome kvs "type",
      lookupKV_isSome kvs "inputs", lookupKV_isSome kvs "outputs",
      lookupKV_isSome kvs "params"] at h
    cases hid : lookupKV kvs "id" with
    | none => rw [hid] at h; simp at h
    | some idv =>
    rw [hid] at h
    cases hty : lookupKV kvs "type" with
    | none => rw [hty] at h; simp at h
    | some tyv =>
    rw [hty] at h
    cases hin : lookupKV kvs "inputs" with
    | none => rw [hin] at h; simp at h
    | some inv =>
    rw [hin] at h
    cases hout : lookupKV kvs "outputs" with
    | none => rw [hout] at h; simp at h
    | some outv =>
    rw [hout] at h
    cases hpar : lookupKV kvs "params" with
    | none => rw [hpar] at h; simp at h
    | some pv =>
    rw [hpar] at h
    cases hInt : isInstInt idv with
    | false => simp [hInt] at h
    | true =>
    cases hStr : isInstStr tyv with
    | false => simp [hInt, hStr] at h
    | true =>
    cases hInL : isInstList inv with
    | false => simp [hInt, hStr, hInL] at h
    | true =>
    cases hOutL : isInstList outv with
    | false => simp [hInt, hStr, hInL, hOutL] at h
    | true =>
    cases hDict : isInstDict pv with
    | false => simp [hInt, hStr, hInL, hOutL, hDict] at h
    | true =>
    cases hAllIn : (pyListElems inv).all isInstInt with
    | false => simp [hInt, hStr, hInL, hOutL, hDict, hAllIn] at h
    | true =>
    cases hAllOut : (pyListElems outv).all (fun v => pyIsNone v || isInstInt v) with
    | false => simp [hInt, hStr, hInL, hOutL, hDict, hAllIn, hAllOut] at h
    | true =>
    simp only [hInt, hStr, hInL, hOutL, hDict, hAllIn, hAllOut, Option.isSome_some,
      Bool.not_true, Bool.false_eq_true, if_false, Except.ok.injEq] at h
    subst h
    cases inv with
    | list inElems =>
      cases outv with
      | list outElems =>
        cases pv with
        | dict pkvs =>
          refine ⟨?_, ?_⟩
          · simp only [SpecNodeWF, hid, hty, hin, hout, hpar]
            simp only [pyListElems] at hAllIn hAllOut
            simp [hInt, hStr, hAllIn, hAllOut]
          · simp [pyGetD, hid]
        | none => simp [isInstDict] at hDict
        | int _ => simp [isInstDict] at hDict
        | bool _ => simp [isInstDict] at hDict
        | str _ => simp [isInstDict] at hDict
        | list _ => simp [isInstDict] at hDict
      | none => simp [isInstList] at hOutL
      | int _ => simp [isInstList] at hOutL
      | bool _ => simp [isInstList] at hOutL
      | str _ => simp [isInstList] at hOutL
      | dict _ => simp [isInstList] at hOutL
    | none => simp [isInstList] at hInL
    | int _ => simp [isInstList] at hInL
    | bool _ => simp [isInstList] at hInL
    | str _ => simp [isInstList] at hInL
    | dict _ => simp [isInstList] at hInL

/-- The per-node loop accepts a node list exactly by accepting each node;
the collected `node_ids` are the nodes' `id` fields in order. -/
theorem validateNodes_sound {ns : List PyVal} {ids : List PyVal}
    (h : validateNodes ns = .ok ids) :
    ns.all SpecNodeWF = true ∧ ids = ns.map (fun n => pyGetD n "id") := by
  induction ns generalizing ids with
  | nil =>
    simp only [validateNodes] at h
    injection h with h
    subst h
    simp
  | cons n rest ih =>
    simp only [validateNodes, bind, Except.bind] at h
    cases hn : validateNode n with
    | error e => rw [hn] at h; simp at h
    | ok i =>
      rw [hn] at h
      cases hr : validateNodes rest with
      | error e => rw [hr] at h; simp at h
      | ok is =>
        rw [hr] at h
        simp only [pure, Except.pure, Except.ok.injEq] at h
        subst h
        obtain ⟨hwf, hidv⟩ := validateNode_sound hn
        obtain ⟨hall, hids⟩ := ih hr
        refine ⟨by simp [hwf, hall], by simp [hidv, hids]⟩

/-- Inversion of the successful top-level checks: the description is a
dict whose required keys are bound to values of the right shapes, with
`meta` a dict whenever present. -/
theorem validateTop_sound {data ev nv : PyVal}
    (h : validateTop data = .ok (ev, nv)) :
    ∃ kvs, data = .dict kvs ∧
      lookupKV kvs "entry" = some ev ∧ isInstInt ev = true ∧
      lookupKV kvs "nodes" = some nv ∧ isInstList nv = true ∧
      (∃ w, lookupKV kvs "workflow_id" = some w ∧ isInstStr w = true) ∧
      (∀ mv, lookupKV kvs "meta" = some mv → isInstDict mv = true) := by
  cases data with
  | none => simp [validateTop, pyKeyIn, pyInVal, bind, Except.bind] at h
  | int m => simp [validateTop, pyKeyIn, pyInVal, bind, Except.bind] at h
  | bool b => simp [validateTop, pyKeyIn, pyInVal, bind, Except.bind] at h
  | str s =>
    simp only [validateTop, pyKeyIn, pyInVal, pyGetStr, bind, Except.bind,
      pure, Except.pure] at h
    repeat' split at h
    all_goals simp at h
  | list xs =>
    simp only [validateTop, pyKeyIn, pyInVal, pyGetStr, bind, Except.bind,
      pure, Except.pure] at h
    repeat' split at h
    all_goals simp at h
  | dict kvs =>
    simp only [validateTop, pyKeyIn, pyInVal, pyGetStr, bind, Except.bind,
      pure, Except.pure] at h
    rw [lookupKV_isSome kvs "workflow_id", lookupKV_isSome kvs "entry",
      lookupKV_isSome kvs "nodes", lookupKV_isSome kvs "meta"] at h
    cases hw : lookupKV kvs "workflow_id" with
    | none => rw [hw] at h; simp at h
    | some wv =>
    rw [hw] at h
    cases he : lookupKV kvs "entry" with
    | none => rw [he] at h; simp at h
    | some evv =>
    rw [he] at h
    cases hn : lookupKV kvs "nodes" with
    | none => rw [hn] at h; simp at h
    | some nvv =>
    rw [hn] at h
    cases hWS : isInstStr wv with
    | false => simp [hWS] at h
    | true =>
    cases hEI : isInstInt evv with
    | false => simp [hWS, hEI] at h
    | true =>
    cases hNL : isInstList nvv with
    | false => simp [hWS, hEI, hNL] at h
    | true =>
    cases hm : lookupKV kvs "meta" with
    | none =>
      rw [hm] at h
      simp only [hWS, hEI, hNL, Option.isSome_some, Option.isSome_none,
        Bool.not_true, Bool.not_false, Bool.false_eq_true, if_false, if_true,
        Except.ok.injEq, Prod.mk.injEq] at h
      obtain ⟨rfl, rfl⟩ := h
      exact ⟨kvs, rfl, he, hEI, hn, hNL, ⟨wv, hw, hWS⟩, fun mv hmv => by
        rw [hm] at hmv; cases hmv⟩
    | some mv =>
      rw [hm] at h
      cases hMD : isInstDict mv with
      | false => simp [hWS, hEI, hNL, hMD] at h
      | true =>
        simp only [hWS, hEI, hNL, hMD, Option.isSome_some, Bool.not_true,
          Bool.false_eq_true, if_false, if_true, Except.ok.injEq, Prod.mk.injEq] at h
        obtain ⟨rfl, rfl⟩ := h
        exact ⟨kvs, rfl, he, hEI, hn, hNL, ⟨wv, hw, hWS⟩, fun mv2 hmv2 => by
          rw [hm] at hmv2; injection hmv2 with hmv2; rw [← hmv2]; exact hMD⟩

/-- A description accepted by `_validate_workflow` satisfies the
spec-side structural rules. -/
theorem validateWorkflow_sound {data : PyVal}
    (h : validateWorkflow data = .ok ()) : SpecWellFormed data = true := by
  simp only [validateWorkflow, bind, Except.bind] at h
  cases ht : validateTop data with
  | error e => rw [ht] at h; simp at h
  | ok p =>
  rw [ht] at h
  obtain ⟨ev, nv⟩ := p
  simp only [pure, Except.pure] at h
  cases hn : validateNodes (pyListElems nv) with
  | error e => rw [hn] at h; simp at h
  | ok ids =>
  rw [hn] at h
  cases hdup : pyHasDup ids with
  | true => simp [hdup] at h
  | false =>
  cases hmem : pyMem ev ids with
  | false => simp [hdup, hmem] at h
  | true =>
  obtain ⟨kvs, rfl, he, hEI, hnod, hNL, ⟨wv, hw, hWS⟩, hmeta⟩ := validateTop_sound ht
  obtain ⟨hall, hids⟩ := validateNodes_sound hn
  cases nv with
  | list ns =>
    simp only [SpecWellFormed, hw, hWS, he, hEI, hnod]
    simp only [pyListElems] at hall hids hn
    subst hids
    simp only [hall, hdup, hmem, Option.getD_some, Bool.not_false, Bool.and_self,
      Bool.true_and, Bool.and_true]
    cases hm : lookupKV kvs "meta" with
    | none => simp
    | some mv => simp [hmeta mv hm]
  | none => simp [isInstList] at hNL
  | int _ => simp [isInstList] at hNL
  | bool _ => simp [isInstList] at hNL
  | str _ => simp [isInstList] at hNL
  | dict _ => simp [isInstList] at hNL

/-- Inversion of a successful construction: the description passed
validation and the stored fields are the description's fields. -/
theorem mkWorkflow_ok_validate {data : PyVal} {wf : Workflow}
    (h : mkWorkflow data = .ok wf) :
    validateWorkflow data = .ok () ∧
    wf.entry = pyGetD data "entry" ∧
    wf.nodes = pyListElems (pyGetD data "nodes") := by
  unfold mkWorkflow at h
  cases hv : validateWorkflow data with
  | error e => rw [hv] at h; simp at h
  | ok u =>
    cases u
    rw [hv] at h
    simp only [Except.ok.injEq] at h
    subst h
    exact ⟨rfl, rfl, rfl⟩

/-- Inversion of a successful `_validate_workflow` run into its four
stages. -/
theorem validateWorkflow_ok_inv {data : PyVal}
    (h : validateWorkflow data = .ok ()) :
    ∃ ev nv ids, validateTop data = .ok (ev, nv) ∧
      validateNodes (pyListElems nv) = .ok ids ∧
      pyHasDup ids = false ∧ pyMem ev ids = true := by
  simp only [validateWorkflow, bind, Except.bind] at h
  cases ht : validateTop data with
  | error e => rw [ht] at h; simp at h
  | ok p =>
  rw [ht] at h
  obtain ⟨ev, nv⟩ := p
  simp only [pure, Except.pure] at h
  cases hn : validateNodes (pyListElems nv) with
  | error e => rw [hn] at h; simp at h
  | ok ids =>
  rw [hn] at h
  cases hdup : pyHasDup ids with
  | true => simp [hdup] at h
  | false =>
  cases hmem : pyMem ev ids with
  | false => simp [hdup, hmem] at h
  | true => exact ⟨ev, nv, ids, rfl, hn, hdup, hmem⟩

/-- The facts about a validly constructed workflow that the execution
lemmas rely on: every stored node is well shaped, the entry is one of
the node ids, and the node ids are pairwise `==`-distinct. -/
theorem mkWorkflow_inv {data : PyVal} {wf : Workflow}
    (h : mkWorkflow data = .ok wf) :
    wf.nodes.all SpecNodeWF = true ∧ pyMem wf.entry (nodeIds wf) = true ∧
    pyHasDup (nodeIds wf) = false := by
  obtain ⟨hv, hentry, hnodes⟩ := mkWorkflow_ok_validate h
  obtain ⟨ev, nv, ids, ht, hn, hdup, hmem⟩ := validateWorkflow_ok_inv hv
  obtain ⟨kvs, rfl, he, hEI, hnod, hNL, _, _⟩ := validateTop_sound ht
  obtain ⟨hall, hids⟩ := validateNodes_sound hn
  have hge : pyGetD (PyVal.dict kvs) "entry" = ev := by simp [pyGetD, he]
  have hgn : pyGetD (PyVal.dict kvs) "nodes" = nv := by simp [pyGetD, hnod]
  rw [hge] at hentry
  rw [hgn] at hnodes
  have hids2 : nodeIds wf = ids := by
    rw [nodeIds, hnodes, hids]
  refine ⟨?_, ?_, ?_⟩
  · rw [hnodes]; exact hall
  · rw [hentry, hids2]; exact hmem
  · rw [hids2]; exact hdup

/-- Skill-map lookup over the map `_get_skill_map` builds is node-map
lookup followed by the per-node resolution. -/
theorem skillLookup_mkSkillMap {Ctx : Type} (wf : Workflow)
    (skillOf : PyVal → Ctx → PyVal × Ctx) (cur : PyVal) :
    skillLookup (mkSkillMap wf skillOf) cur = (lookupNode wf cur).map skillOf := by
  unfold skillLookup mkSkillMap lookupNode
  induction wf.nodes with
  | nil => rfl
  | cons n rest ih =>
    simp only [List.map_cons]
    cases hp : pyEq cur (pyGetD n "id") with
    | true =>
      rw [@List.find?_cons_of_pos _ (fun kv => pyEq cur kv.1)
            ((pyGetD n "id", skillOf n)) _ hp,
        @List.find?_cons_of_pos _ (fun m => pyEq cur (pyGetD m "id")) n rest hp]
      rfl
    | false =>
      rw [@List.find?_cons_of_neg _ (fun kv => pyEq cur kv.1)
            ((pyGetD n "id", skillOf n)) _ (by simp [hp]),
        @List.find?_cons_of_neg _ (fun m => pyEq cur (pyGetD m "id")) n rest (by simp [hp])]
      exact ih

/-- A current id `==`-present among the node ids finds a node in the
node map. -/
theorem lookupNode_of_mem {wf : Workflow} {cur : PyVal}
    (h : pyMem cur (nodeIds wf) = true) :
    ∃ node, lookupNode wf cur = some node ∧ node ∈ wf.nodes ∧
      pyEq cur (pyGetD node "id") = true := by
  unfold pyMem nodeIds at h
  rw [List.any_map, List.any_eq_true] at h
  obtain ⟨node, hmem, hp⟩ := h
  have hsome : (wf.nodes.find? (fun n => pyEq cur (pyGetD n "id"))).isSome := by
    rw [List.find?_isSome]
    exact ⟨node, hmem, hp⟩
  cases hf : wf.nodes.find? (fun n => pyEq cur (pyGetD n "id")) with
  | none => rw [hf] at hsome; simp at hsome
  | some node2 =>
    have hp2 := List.find?_some hf
    exact ⟨node2, hf, List.mem_of_find?_eq_some hf, by simpa using hp2⟩

/-- A well-shaped node is a dict binding `"outputs"` to a list of
integer-or-null entries. -/
theorem specNodeWF_outputs {node : PyVal} (h : SpecNodeWF node = true) :
    ∃ kvs xs, node = .dict kvs ∧ lookupKV kvs "outputs" = some (.list xs) ∧
      xs.all (fun v => pyIsNone v || isInstInt v) = true := by
  cases node with
  | dict kvs =>
    simp only [SpecNodeWF, Bool.and_eq_true] at h
    obtain ⟨⟨⟨⟨h1, h2⟩, h3⟩, h4⟩, h5⟩ := h
    cases hout : lookupKV kvs "outputs" with
    | none => rw [hout] at h4; simp at h4
    | some v =>
      rw [hout] at h4
      cases v with
      | list xs => exact ⟨kvs, xs, rfl, hout, h4⟩
      | none => simp at h4
      | int _ => simp at h4
      | bool _ => simp at h4
      | str _ => simp at h4
      | dict _ => simp at h4
  | none => simp [SpecNodeWF] at h
  | int _ => simp [SpecNodeWF] at h
  | bool _ => simp [SpecNodeWF] at h
  | str _ => simp [SpecNodeWF] at h
  | list _ => simp [SpecNodeWF] at h

/-- The declared outputs of a found, well-shaped node. -/
theorem outputsOf_eq {wf : Workflow} {cur node : PyVal}
    {kvs : List (String × PyVal)} {xs : List PyVal}
    (hfind : lookupNode wf cur = some node) (hnode : node = .dict kvs)
    (houts : lookupKV kvs "outputs" = some (.list xs)) :
    outputsOf wf cur = .list xs := by
  subst hnode
  simp [outputsOf, lookupNodeD, hfind, pyGetD, houts]

/-- The method `_validate_next` on a found, well-shaped node is exactly the
membership test of the candidate among the declared outputs. -/
theorem validateNext_char {wf : Workflow} {cur node : PyVal}
    {kvs : List (String × PyVal)} {xs : List PyVal}
    (hfind : lookupNode wf cur = some node) (hnode : node = .dict kvs)
    (houts : lookupKV kvs "outputs" = some (.list xs)) (nxt : PyVal) :
    validateNext wf cur nxt =
      (if xs.any (fun e => pyEq nxt e) then .ok () else .error (invTransErr nxt)) := by
  subst hnode
  simp only [validateNext, hfind, pyGetStr, houts, pyInVal, bind, Except.bind,
    pure, Except.pure, invTransErr]
  cases hN : pyIsNone nxt <;> cases hM : xs.any (fun e => pyEq nxt e) <;>
    simp [hN, hM]

/-! ## Skill resolution (`Search_Skill`) -/

/-- A plugin module as `Search_Skill` sees it: it may or may not expose
the `Self_skill` entry symbol; an exposed symbol is a factory that,
applied to the node definition, either raises or returns a constructed
object of type `σ` (the source performs no check on what it returns). -/
structure PluginModule (σ : Type) where
  selfSkill : Option (PyVal → Except PyErr σ)

/-- The resolver `Search_Skill`: compute the module path of the plugin and
load the module (the module environment is abstracted by the function
`modules`; a missing module raises `ImportError` — the source converts
`ModuleNotFoundError` to `ImportError("Plugin module not found: ...")`),
fetch the `Self_skill` attribute (`ImportError("Plugin missing
Self_skill: ...")` when absent), and return the factory applied to the
node data.  The source never verifies that the returned object satisfies
the Skill contract. -/
def searchSkill {σ : Type} (modules : String → Option (PluginModule σ))
    (skillName : String) (skillData : PyVal) : Except PyErr σ :=
  let modulePath := "plugins." ++ skillName
  match modules modulePath with
  | Option.none => .error (.importError ("Plugin module not found: " ++ modulePath))
  | some m =>
    match m.selfSkill with
    | Option.none => .error (.importError ("Plugin missing Self_skill: " ++ modulePath))
    | some skillClass => skillClass skillData

/-! ## The cached skill map (`_get_skill_map`) -/

/-- The mutable per-graph state of a `Workflow` object: the `_skills`
and `_skill_map` caches, both `None` after `__init__`. -/
structure WFState (σ : Type) where
  skills : Option (List σ)
  skillMap : Option (List (PyVal × σ))

/-- The state right after `Workflow.__init__`. -/
def initWFState {σ : Type} : WFState σ :=
  { skills := Option.none, skillMap := Option.none }

/-- The method `Workflow._get_skill_map`: on first call build
`{node["id"]: Search_Skill(node["type"], node) for node in self._nodes}`
and cache it in `self._skill_map`; later calls return the cache.  The
resolver (`Search_Skill` applied to the type name and node) is
abstracted by `resolver`; the third component counts how many resolver
invocations the call performed. -/
def getSkillMap {σ : Type} (wf : Workflow) (resolver : PyVal → PyVal → σ)
    (st : WFState σ) : List (PyVal × σ) × WFState σ × Nat :=
  match st.skillMap with
  | some m => (m, st, 0)
  | Option.none =>
    let m := wf.nodes.map (fun n => (pyGetD n "id", resolver (pyGetD n "type") n))
    (m, { st with skillMap := some m }, wf.nodes.length)

/-- The method `Workflow.execute` as a stateful operation on the workflow object:
fetch (or build) the skill map through `_get_skill_map`, then run the
loop from the entry; also returns the updated object state and the
number of resolver invocations performed. -/
def executeStateful {Ctx : Type} (wf : Workflow)
    (resolver : PyVal → PyVal → Ctx → PyVal × Ctx)
    (st : WFState (Ctx → PyVal × Ctx)) (fuel : Nat) (ctx : Ctx) :
    (List PyVal × ExecOutcome) × WFState (Ctx → PyVal × Ctx) × Nat :=
  let r := getSkillMap wf resolver st
  (executeFrom wf r.1 fuel wf.entry ctx, r.2.1, r.2.2)

/-! ## Concrete fixtures used by witnesses and counterexamples -/

/-- Node 1 of the two-node cycle: outputs `[2]`. -/
def cycNode1 : PyVal := .dict [("id", .int 1), ("type", .str "a"),
  ("inputs", .list []), ("outputs", .list [.int 2]), ("params", .dict [])]

/-- Node 2 of the two-node cycle: outputs `[1, null]`. -/
def cycNode2 : PyVal := .dict [("id", .int 2), ("type", .str "b"),
  ("inputs", .list []), ("outputs", .list [.int 1, .none]), ("params", .dict [])]

/-- The two-node-cycle workflow description (entry 1). -/
def cycData : PyVal := .dict [("workflow_id", .str "w"), ("entry", .int 1),
  ("nodes", .list [cycNode1, cycNode2])]

/-- The workflow constructed from `cycData`. -/
def cycWf : Workflow :=
  { workflow_id := .str "w", entry := .int 1, nodes := [cycNode1, cycNode2],
    meta := .dict [] }

/-- Skills of the two-node cycle: node 1's skill returns 2; node 2's
skill returns 1 on its first invocation and the null sentinel on its
second (the context, a counter, tracks how often node 2 has run). -/
def cycSkillOf : PyVal → Nat → PyVal × Nat := fun n ctx =>
  if pyEq (pyGetD n "id") (.int 2) then
    (if ctx == 0 then (.int 1, 1) else (.none, ctx))
  else (.int 2, ctx)

/-! ## Lemmas about booleans as return values -/

/-- Python `in` treats a boolean exactly as its integer coercion. -/
theorem pyInVal_bool_int (b : Bool) (v : PyVal) :
    pyInVal (.bool b) v = pyInVal (.int (if b then 1 else 0)) v := by
  cases v with
  | list xs => simp [pyInVal, pyEq_bool_int]
  | dict kvs => rfl
  | str s => rfl
  | none => rfl
  | int _ => rfl
  | bool _ => rfl

/-- The method `_validate_next` treats a boolean candidate exactly as its integer
coercion. -/
theorem validateNext_bool_int (wf : Workflow) (cur : PyVal) (b : Bool) :
    validateNext wf cur (.bool b) = validateNext wf cur (.int (if b then 1 else 0)) := by
  unfold validateNext
  cases hl : lookupNode wf cur with
  | none => rfl
  | some node =>
    cases hg : pyGetStr node "outputs" with
    | error e => simp [bind, Except.bind, hg]
    | ok outs => simp [bind, Except.bind, hg, pyInVal_bool_int, pyIsNone]

/-! ## Claim theorems -/

/-- C9: for the two-node workflow in which node 1 declares outputs [2]
and node 2 declares outputs [1, null], with node 1's skill returning 2
and node 2's skill alternately returning 1 then null, the run terminates
successfully after exactly two full cycles through node 1: the executed
trace is 1, 2, 1, 2 with normal termination, so node 1's skill and
node 2's skill each execute exactly twice. -/
theorem c9_two_node_cycle_two_rounds :
    mkWorkflow cycData = .ok cycWf ∧
    execute cycWf cycSkillOf 5 0 =
      ([.int 1, .int 2, .int 1, .int 2], ExecOutcome.ok) ∧
    ([PyVal.int 1, .int 2, .int 1, .int 2].countP (fun x => pyEq x (.int 1)) = 2 ∧
     [PyVal.int 1, .int 2, .int 1, .int 2].countP (fun x => pyEq x (.int 2)) = 2) :=
  ⟨rfl, rfl, rfl, rfl⟩

/-- C3: whenever the current node's skill returns a value that is
neither an integer (nor a bool, which Python counts as an integer) nor
the null sentinel, the loop stops at that node with
`ContractViolationError` (the source's `TypeError`); the trace shows no
transition is taken and no further skill executes. -/
theorem c3_contract_violation_on_bad_return {Ctx : Type} (wf : Workflow)
    (smap : List (PyVal × (Ctx → PyVal × Ctx))) (cur : PyVal)
    (sk : Ctx → PyVal × Ctx) (ctx : Ctx) (fuel : Nat)
    (h1 : skillLookup smap cur = some sk)
    (h2 : pyIsNone (sk ctx).1 = false) (h3 : isInstInt (sk ctx).1 = false) :
    executeFrom wf smap (fuel + 1) cur ctx =
      ([cur], .err (.typeError "execute must return an integer node id or None")) := by
  simp [executeFrom, h1, h2, h3]

/-- Witness for C3: in the two-node-cycle workflow, a skill at node 1
returning the string "boom" stops the run with the contract-violation
`TypeError` after executing only node 1. -/
theorem c3_contract_violation_witness :
    executeFrom cycWf [((PyVal.int 1), fun (_ : Unit) => (PyVal.str "boom", ()))]
      (3 + 1) (PyVal.int 1) () =
      ([PyVal.int 1], .err (.typeError "execute must return an integer node id or None")) :=
  c3_contract_violation_on_bad_return cycWf
    [((PyVal.int 1), fun (_ : Unit) => (PyVal.str "boom", ()))]
    (PyVal.int 1) (fun (_ : Unit) => (PyVal.str "boom", ())) () 3 rfl rfl rfl

/-- C10: a skill returning a Python boolean passes the loop's integer
return-type check (no ContractViolationError is raised at that step):
the boolean is validated against the current node's declared outputs
exactly as the node id 1 or 0 would be, the loop proceeds to transition
validation rather than the contract-violation branch, and True is
accepted whenever the id 1 is among the declared outputs. -/
theorem c10_bool_return_passes {Ctx : Type} (wf : Workflow)
    (smap : List (PyVal × (Ctx → PyVal × Ctx))) (cur : PyVal)
    (sk : Ctx → PyVal × Ctx) (ctx ctx' : Ctx) (b : Bool) (fuel : Nat)
    (h1 : skillLookup smap cur = some sk) (h2 : sk ctx = (.bool b, ctx')) :
    isInstInt (.bool b) = true ∧
    validateNext wf cur (.bool b) = validateNext wf cur (.int (if b then 1 else 0)) ∧
    executeFrom wf smap (fuel + 1) cur ctx =
      (match validateNext wf cur (.bool b) with
       | .error e => ([cur], ExecOutcome.err e)
       | .ok _ => (cur :: (executeFrom wf smap fuel (.bool b) ctx').1,
                   (executeFrom wf smap fuel (.bool b) ctx').2)) ∧
    (b = true → pyMemD (.int 1) (outputsOf wf cur) = true →
      validateNext wf cur (.bool true) = .ok ()) := by
  refine ⟨rfl, validateNext_bool_int wf cur b, ?_, ?_⟩
  · simp only [executeFrom, h1, h2, pyIsNone, isInstInt, Bool.not_true,
      Bool.false_eq_true, if_false]
  · intro hb hmem
    subst hb
    unfold outputsOf lookupNodeD at hmem
    cases hl : lookupNode wf cur with
    | none => rw [hl] at hmem; simp [pyGetD, pyMemD] at hmem
    | some node =>
      rw [hl] at hmem
      simp only [Option.getD_some] at hmem
      cases node with
      | dict kvs =>
        cases ho : lookupKV kvs "outputs" with
        | none => simp [pyGetD, ho, pyMemD] at hmem
        | some outs =>
          cases outs with
          | list xs =>
            simp only [pyGetD, ho, Option.getD_some, pyMemD] at hmem
            rw [validateNext_char hl rfl ho (.bool true)]
            have hxs : (xs.any fun e => pyEq (.bool true) e) = true := by
              rw [show (fun e => pyEq (.bool true) e) = (fun e => pyEq (.int 1) e)
                from funext (fun e => by simpa using pyEq_bool_int true e)]
              exact hmem
            simp [hxs]
          | none => simp [pyGetD, ho, pyMemD] at hmem
          | int _ => simp [pyGetD, ho, pyMemD] at hmem
          | bool _ => simp [pyGetD, ho, pyMemD] at hmem
          | str _ => simp [pyGetD, ho, pyMemD] at hmem
          | dict _ => simp [pyGetD, ho, pyMemD] at hmem
      | none => simp [pyGetD, pyMemD] at hmem
      | int _ => simp [pyGetD, pyMemD] at hmem
      | bool _ => simp [pyGetD, pyMemD] at hmem
      | str _ => simp [pyGetD, pyMemD] at hmem
      | list _ => simp [pyGetD, pyMemD] at hmem

/-- Single-node workflow used to witness C10: node 1 declares outputs
[1, null] and its skill returns the boolean True. -/
def boolNode : PyVal := .dict [("id", .int 1), ("type", .str "a"),
  ("inputs", .list []), ("outputs", .list [.int 1, .none]), ("params", .dict [])]

/-- The workflow holding `boolNode`. -/
def boolWf : Workflow :=
  { workflow_id := .str "w", entry := .int 1, nodes := [boolNode], meta := .dict [] }

/-- A skill that always returns the boolean True. -/
def boolSkill : Unit → PyVal × Unit := fun _ => (.bool true, ())

/-- Witness for C10: with node 1 declaring 1 among its outputs, the
returned True passes transition validation. -/
theorem c10_bool_return_witness :
    validateNext boolWf (.int 1) (.bool true) = .ok () :=
  (c10_bool_return_passes boolWf [((PyVal.int 1), boolSkill)] (.int 1) boolSkill
    () () true 0 rfl rfl).2.2.2 rfl rfl

/-- Plugin environment for the C7 counterexample: every module path
resolves to a module exposing a `Self_skill` factory that constructs
successfully but returns an object that does not satisfy the Skill
Contract (skill objects are modelled by `Bool`, where only `true`
stands for a contract-satisfying object). -/
def badPluginEnv : String → Option (PluginModule Bool) :=
  fun _ => some { selfSkill := some (fun _ => .ok false) }

/-- C7 counterexample: the claim says resolution fails with
`PluginContractError` when the exposed symbol does not satisfy the Skill
Contract.  In the source, `Search_Skill` performs no such check: it
returns `Self_skill(skill_data)` unconditionally, so a factory whose
result is not a Skill resolves successfully (here to the
non-contract-satisfying object `false`) instead of raising. -/
theorem c7_plugin_contract_counterexample :
    searchSkill badPluginEnv "x" (.dict []) = .ok false :=
  rfl

/-- C7 (amended): resolution fails with `PluginNotFoundError` (the
source's `ImportError "Plugin module not found: ..."`) exactly when no
plugin unit named after the type exists, fails with
`PluginContractError` (`ImportError "Plugin missing Self_skill: ..."`)
when a matching unit exists but does not expose the `Self_skill` entry
symbol, and otherwise returns exactly the factory's construction result
with no fallback to a default skill and no check that the result
satisfies the Skill Contract. -/
theorem c7_resolution_errors_amended {σ : Type}
    (modules : String → Option (PluginModule σ)) (name : String) (d : PyVal) :
    (modules ("plugins." ++ name) = Option.none →
      searchSkill modules name d =
        .error (.importError ("Plugin module not found: " ++ ("plugins." ++ name)))) ∧
    (∀ m, modules ("plugins." ++ name) = some m → m.selfSkill = Option.none →
      searchSkill modules name d =
        .error (.importError ("Plugin missing Self_skill: " ++ ("plugins." ++ name)))) ∧
    (∀ m f, modules ("plugins." ++ name) = some m → m.selfSkill = some f →
      searchSkill modules name d = f d) := by
  refine ⟨fun h => ?_, fun m h1 h2 => ?_, fun m f h1 h2 => ?_⟩
  · simp [searchSkill, h]
  · simp [searchSkill, h1, h2]
  · simp [searchSkill, h1, h2]

/-- Empty plugin environment used to witness C7. -/
def emptyPluginEnv : String → Option (PluginModule Bool) :=
  fun _ => Option.none

/-- Witness for C7 (amended): resolving any type against the empty
plugin environment fails with the module-not-found `ImportError`. -/
theorem c7_resolution_errors_witness :
    searchSkill emptyPluginEnv "x" (.dict []) =
      .error (.importError ("Plugin module not found: " ++ ("plugins." ++ "x"))) :=
  (c7_resolution_errors_amended emptyPluginEnv "x" (.dict [])).1 rfl

/-- C8: the id-to-Skill map is constructed at most once per graph: after
any call to `_get_skill_map` the cache holds the returned map, a later
call returns the same map with zero resolver invocations, a first call
on a fresh graph builds each node's skill exactly once from that node's
definition (`Search_Skill(node["type"], node)`, one invocation per
node), and later `execute` calls reuse the cached map without
re-resolution. -/
theorem c8_skill_map_cached_once {Ctx : Type} (wf : Workflow)
    (resolver : PyVal → PyVal → Ctx → PyVal × Ctx)
    (st : WFState (Ctx → PyVal × Ctx)) (m : List (PyVal × (Ctx → PyVal × Ctx)))
    (st' : WFState (Ctx → PyVal × Ctx)) (k : Nat)
    (h : getSkillMap wf resolver st = (m, st', k)) :
    st'.skillMap = some m ∧
    getSkillMap wf resolver st' = (m, st', 0) ∧
    (st.skillMap = Option.none →
      m = wf.nodes.map (fun n => (pyGetD n "id", resolver (pyGetD n "type") n)) ∧
      k = wf.nodes.length) ∧
    (∀ fuel ctx, executeStateful wf resolver st' fuel ctx =
      (executeFrom wf m fuel wf.entry ctx, st', 0)) := by
  cases hst : st.skillMap with
  | some m0 =>
    rw [getSkillMap, hst] at h
    simp only [Prod.mk.injEq] at h
    obtain ⟨rfl, rfl, rfl⟩ := h
    refine ⟨hst, ?_, ?_, ?_⟩
    · rw [getSkillMap, hst]
    · intro hc
      exact Option.noConfusion hc
    · intro fuel ctx
      rw [executeStateful, getSkillMap, hst]
  | none =>
    rw [getSkillMap, hst] at h
    simp only [Prod.mk.injEq] at h
    obtain ⟨rfl, rfl, rfl⟩ := h
    refine ⟨rfl, by rw [getSkillMap], fun _ => ⟨rfl, rfl⟩, ?_⟩
    intro fuel ctx
    rw [executeStateful, getSkillMap]

/-- A trivial resolver used to witness C8. -/
def cycResolver : PyVal → PyVal → Nat → PyVal × Nat :=
  fun _ node => cycSkillOf node

/-- The skill map the first `_get_skill_map` call builds for the
two-node cycle. -/
def cycBuiltMap : List (PyVal × (Nat → PyVal × Nat)) :=
  cycWf.nodes.map (fun n => (pyGetD n "id", cycResolver (pyGetD n "type") n))

/-- The object state after that first call: the map is cached. -/
def cycMapState : WFState (Nat → PyVal × Nat) :=
  { skills := Option.none, skillMap := some cycBuiltMap }

/-- Witness for C8: after the first `_get_skill_map` call on the
two-node cycle (which performed one resolution per node), the second
call returns the cached map with zero resolver invocations. -/
theorem c8_skill_map_cached_witness :
    getSkillMap cycWf cycResolver cycMapState = (cycBuiltMap, cycMapState, 0) :=
  (c8_skill_map_cached_once cycWf cycResolver initWFState cycBuiltMap
    cycMapState 2 rfl).2.1

/-- Description with two nodes sharing id 1 where the second node is
also missing its `type` field. -/
def dupBadData : PyVal := .dict [("workflow_id", .str "w"), ("entry", .int 1),
  ("nodes", .list [cycNode1, .dict [("id", .int 1)]])]

/-- C5 counterexample: the claim says every description in which two
nodes share an id fails with `DuplicateNodeIdError`.  In this
description both nodes carry id 1, yet construction fails with the
missing-field `MalformedNodeError` (`ValueError "Missing required node
field: type"`), because the source checks each node's required fields
before the uniqueness check ever runs. -/
theorem c5_duplicate_id_counterexample :
    pyEq (pyGetD cycNode1 "id") (pyGetD (.dict [("id", .int 1)]) "id") = true ∧
    mkWorkflow dupBadData = .error (.valueError "Missing required node field: type") ∧
    PyErr.valueError "Missing required node field: type" ≠
      PyErr.valueError "node ids must be unique" :=
  ⟨rfl, rfl, by decide⟩

/-- C5 (amended): for every description that passes the top-level checks
and every per-node shape check, a duplicate node id makes construction
fail with `DuplicateNodeIdError` (`ValueError "node ids must be
unique"`). -/
theorem c5_duplicate_id_amended (data ev nv : PyVal) (ids : List PyVal)
    (hTop : validateTop data = .ok (ev, nv))
    (hNodes : validateNodes (pyListElems nv) = .ok ids)
    (hDup : pyHasDup ids = true) :
    mkWorkflow data = .error (.valueError "node ids must be unique") := by
  have hv : validateWorkflow data = .error (.valueError "node ids must be unique") := by
    simp [validateWorkflow, bind, Except.bind, hTop, hNodes, hDup]
  simp [mkWorkflow, hv]

/-- Well-shaped description listing the same node twice. -/
def dupOkData : PyVal := .dict [("workflow_id", .str "w"), ("entry", .int 1),
  ("nodes", .list [cycNode1, cycNode1])]

/-- Witness for C5 (amended) at a well-shaped description with a
duplicated id. -/
theorem c5_duplicate_id_witness :
    mkWorkflow dupOkData = .error (.valueError "node ids must be unique") :=
  c5_duplicate_id_amended dupOkData (.int 1) (.list [cycNode1, cycNode1])
    [.int 1, .int 1] rfl rfl rfl

/-- Description whose entry is the string "a" (well-shaped node list). -/
def strEntryData : PyVal := .dict [("workflow_id", .str "w"), ("entry", .str "a"),
  ("nodes", .list [cycNode1])]

/-- C6 counterexample: the claim says every description whose entry
equals no declared node id fails with `UnknownEntryError`.  Here the
entry is the string "a", which equals no node id, yet construction fails
with `TypeMismatchError` (`TypeError "entry must be an integer"`),
because the entry shape check runs before the entry-membership check. -/
theorem c6_unknown_entry_counterexample :
    pyMem (pyGetD strEntryData "entry")
      ((pyListElems (pyGetD strEntryData "nodes")).map (fun n => pyGetD n "id")) = false ∧
    mkWorkflow strEntryData = .error (.typeError "entry must be an integer") ∧
    PyErr.typeError "entry must be an integer" ≠
      PyErr.valueError "entry must reference an existing node id" :=
  ⟨rfl, rfl, by simp⟩

/-- C6 (amended): for every description that passes the top-level and
per-node shape checks and whose node ids are pairwise distinct, an entry
absent from the node ids makes construction fail with
`UnknownEntryError` (`ValueError "entry must reference an existing node
id"`). -/
theorem c6_unknown_entry_amended (data ev nv : PyVal) (ids : List PyVal)
    (hTop : validateTop data = .ok (ev, nv))
    (hNodes : validateNodes (pyListElems nv) = .ok ids)
    (hDup : pyHasDup ids = false)
    (hMem : pyMem ev ids = false) :
    mkWorkflow data = .error (.valueError "entry must reference an existing node id") := by
  have hv : validateWorkflow data =
      .error (.valueError "entry must reference an existing node id") := by
    simp [validateWorkflow, bind, Except.bind, pure, Except.pure, hTop, hNodes, hDup, hMem]
  simp [mkWorkflow, hv]

/-- Well-shaped single-node description whose entry is 99. -/
def missEntryData : PyVal := .dict [("workflow_id", .str "w"), ("entry", .int 99),
  ("nodes", .list [cycNode1])]

/-- Witness for C6 (amended) at a well-shaped description with an
absent entry. -/
theorem c6_unknown_entry_witness :
    mkWorkflow missEntryData =
      .error (.valueError "entry must reference an existing node id") :=
  c6_unknown_entry_amended missEntryData (.int 99) (.list [cycNode1])
    [.int 1] rfl rfl rfl rfl

/-- C4: a workflow description violating any spec-side structural rule
(missing required key, wrong field shape, duplicate node id, or entry
not matching a node id) fails at construction.  In this embedding no
skill can be resolved or executed before construction succeeds:
`mkWorkflow` never touches the resolver (`Search_Skill` appears only in
`getSkillMap`/`execute`, which consume a constructed `Workflow`), so a
failing construction performs no plugin lookup and no `execute` call. -/
theorem c4_invalid_description_fails (data : PyVal)
    (h : SpecWellFormed data = false) :
    ∃ e, mkWorkflow data = .error e := by
  cases hm : mkWorkflow data with
  | error e => exact ⟨e, rfl⟩
  | ok wf =>
    have hv := (mkWorkflow_ok_validate hm).1
    have hs := validateWorkflow_sound hv
    rw [h] at hs
    exact Bool.noConfusion hs

/-- Witness for C4: the empty dict is structurally invalid and its
construction fails. -/
theorem c4_invalid_description_witness :
    ∃ e, mkWorkflow (.dict []) = .error e :=
  c4_invalid_description_fails (.dict []) rfl

/-- C2: on a validly constructed workflow, at any reachable step (the
current id among the node ids), transition validation succeeds exactly
when the candidate is `==`-present among the current node's declared
outputs (for the null candidate: exactly when the null sentinel is
declared), fails with `InvalidTransitionError` exactly otherwise, and on
such a failure the loop halts having executed only the current node's
skill — no further node's skill executes. -/
theorem c2_transition_validation {data : PyVal} {wf : Workflow} (cur : PyVal)
    (hmk : mkWorkflow data = .ok wf)
    (hcur : pyMem cur (nodeIds wf) = true) (nxt : PyVal) :
    (validateNext wf cur nxt = .ok () ↔ pyMemD nxt (outputsOf wf cur) = true) ∧
    (validateNext wf cur nxt = .error (invTransErr nxt) ↔
      pyMemD nxt (outputsOf wf cur) = false) ∧
    (∀ {Ctx : Type} (smap : List (PyVal × (Ctx → PyVal × Ctx)))
       (sk : Ctx → PyVal × Ctx) (ctx : Ctx) (fuel : Nat),
       skillLookup smap cur = some sk → (sk ctx).1 = nxt →
       (pyIsNone nxt || isInstInt nxt) = true →
       pyMemD nxt (outputsOf wf cur) = false →
       executeFrom wf smap (fuel + 1) cur ctx = ([cur], .err (invTransErr nxt))) := by
  obtain ⟨hall, hent, hdup⟩ := mkWorkflow_inv hmk
  obtain ⟨node, hfind, hmemN, hpeq⟩ := lookupNode_of_mem hcur
  have hwfN : SpecNodeWF node = true := by
    rw [List.all_eq_true] at hall
    exact hall node hmemN
  obtain ⟨kvs, xs, hnode, houts, hxsall⟩ := specNodeWF_outputs hwfN
  have hchar := validateNext_char hfind hnode houts nxt
  have hout : outputsOf wf cur = .list xs := outputsOf_eq hfind hnode houts
  have hmemEq : pyMemD nxt (outputsOf wf cur) = xs.any (fun e => pyEq nxt e) := by
    rw [hout]
    rfl
  refine ⟨?_, ?_, ?_⟩
  · rw [hchar, hmemEq]
    cases hx : xs.any (fun e => pyEq nxt e) <;> simp [hx]
  · rw [hchar, hmemEq]
    cases hx : xs.any (fun e => pyEq nxt e) <;> simp [hx]
  · intro Ctx smap sk ctx fuel h1 h2 hty hmem
    rw [hmemEq] at hmem
    have hv : validateNext wf cur nxt = .error (invTransErr nxt) := by
      rw [hchar, hmem]
      simp
    cases hN : pyIsNone nxt with
    | true =>
      simp only [executeFrom, h1]
      simp [h2, hN, hv]
    | false =>
      have hI : isInstInt nxt = true := by
        cases hni : isInstInt nxt
        · rw [hN, hni] at hty
          simp at hty
        · rfl
      simp only [executeFrom, h1]
      simp [h2, hN, hI, hv]

/-- Witness for C2: in the two-node cycle, candidate 5 is not among
node 1's outputs and transition validation rejects it with
`InvalidTransitionError`. -/
theorem c2_transition_validation_witness :
    validateNext cycWf (.int 1) (.int 5) = .error (invTransErr (.int 5)) :=
  ((c2_transition_validation (.int 1)
    (rfl : mkWorkflow cycData = .ok cycWf) rfl (.int 5)).2.1).mpr rfl

/-- Neither `InvalidTransitionError` message is the `UnknownNodeError`
message. -/
theorem invTransErr_not_unknown (nxt : PyVal) :
    ¬ IsUnknownNodeErr (invTransErr nxt) := by
  rintro ⟨s, hs⟩
  exact invalid_transition_msg_ne_unknown nxt s hs

/-- The contract-violation `TypeError` is not an `UnknownNodeError`
(a `ValueError`). -/
theorem contractErr_not_unknown :
    ¬ IsUnknownNodeErr (.typeError "execute must return an integer node id or None") := by
  rintro ⟨s, hs⟩
  exact PyErr.noConfusion hs

/-- C1 (amended): on a validly constructed workflow all of whose
declared non-null outputs are `==`-present among the node ids, a run of
the execution loop from the entry never raises `UnknownNodeError` —
every reachable current id stays inside the node map.  (The original
claim, that transition validation alone rules the error out, fails: see
the counterexample, where a validated transition follows a declared
output that names no node.) -/
theorem c1_no_unknown_node_when_closed {Ctx : Type} {data : PyVal} {wf : Workflow}
    (skillOf : PyVal → Ctx → PyVal × Ctx)
    (hmk : mkWorkflow data = .ok wf)
    (hclosed : wf.nodes.all (fun n =>
        (pyListElems (pyGetD n "outputs")).all
          (fun o => pyIsNone o || pyMem o (nodeIds wf))) = true) :
    ∀ fuel ctx, OutcomeNotUnknown (execute wf skillOf fuel ctx).2 := by
  obtain ⟨hall, hent, hdup⟩ := mkWorkflow_inv hmk
  suffices hgen : ∀ fuel cur ctx, pyMem cur (nodeIds wf) = true →
      OutcomeNotUnknown (executeFrom wf (mkSkillMap wf skillOf) fuel cur ctx).2 by
    intro fuel ctx
    exact hgen fuel wf.entry ctx hent
  intro fuel
  induction fuel with
  | zero =>
    intro cur ctx hcur
    simp [executeFrom, OutcomeNotUnknown]
  | succ fuel ih =>
    intro cur ctx hcur
    obtain ⟨node, hfind, hmemN, hpeq⟩ := lookupNode_of_mem hcur
    have hwfN : SpecNodeWF node = true := by
      rw [List.all_eq_true] at hall
      exact hall node hmemN
    obtain ⟨kvs, xs, hnode, houts, hxsall⟩ := specNodeWF_outputs hwfN
    have hsl : skillLookup (mkSkillMap wf skillOf) cur = some (skillOf node) := by
      rw [skillLookup_mkSkillMap, hfind]
      rfl
    have hgd : pyGetD node "outputs" = .list xs := by
      rw [hnode]
      simp [pyGetD, houts]
    cases hN : pyIsNone ((skillOf node ctx).1) with
    | true =>
      cases hvv : validateNext wf cur ((skillOf node ctx).1) with
      | ok u =>
        cases u
        simp [executeFrom, hsl, hN, hvv, OutcomeNotUnknown]
      | error e =>
        rw [validateNext_char hfind hnode houts] at hvv
        cases hx : xs.any (fun e2 => pyEq ((skillOf node ctx).1) e2) with
        | true => rw [hx] at hvv; simp at hvv
        | false =>
          rw [hx] at hvv
          simp only [Bool.false_eq_true, if_false, Except.error.injEq] at hvv
          simp only [executeFrom, hsl, hN, if_true]
          rw [validateNext_char hfind hnode houts, hx]
          simp only [Bool.false_eq_true, if_false, OutcomeNotUnknown]
          exact invTransErr_not_unknown _
    | false =>
      cases hI : isInstInt ((skillOf node ctx).1) with
      | false =>
        simp only [executeFrom, hsl, hN, hI, Bool.false_eq_true, if_false,
          Bool.not_false, if_true, OutcomeNotUnknown]
        exact contractErr_not_unknown
      | true =>
        cases hvv : validateNext wf cur ((skillOf node ctx).1) with
        | error e =>
          rw [validateNext_char hfind hnode houts] at hvv
          cases hx : xs.any (fun e2 => pyEq ((skillOf node ctx).1) e2) with
          | true => rw [hx] at hvv; simp at hvv
          | false =>
            rw [hx] at hvv
            simp only [Bool.false_eq_true, if_false, Except.error.injEq] at hvv
            simp only [executeFrom, hsl, hN, hI, Bool.false_eq_true, if_false,
              Bool.not_true]
            rw [validateNext_char hfind hnode houts, hx]
            simp only [Bool.false_eq_true, if_false, OutcomeNotUnknown]
            exact invTransErr_not_unknown _
        | ok u =>
          cases u
          have hx : xs.any (fun e2 => pyEq ((skillOf node ctx).1) e2) = true := by
            rw [validateNext_char hfind hnode houts] at hvv
            cases hx2 : xs.any (fun e2 => pyEq ((skillOf node ctx).1) e2) with
            | true => rfl
            | false => rw [hx2] at hvv; simp at hvv
          rw [List.any_eq_true] at hx
          obtain ⟨o, ho, hpe⟩ := hx
          rw [List.all_eq_true] at hclosed
          have hcn := hclosed node hmemN
          rw [List.all_eq_true] at hcn
          have hoo := hcn o (by rw [hgd]; simpa [pyListElems] using ho)
          have hio := pyEq_intlike_right hI hpe
          have hOnotnone : pyIsNone o = false := by
            cases o <;> simp [isInstInt] at hio <;> rfl
          rw [hOnotnone, Bool.false_or] at hoo
          rw [pyMem, List.any_eq_true] at hoo
          obtain ⟨k, hk, hpk⟩ := hoo
          have hcur2 : pyMem ((skillOf node ctx).1) (nodeIds wf) = true := by
            rw [pyMem, List.any_eq_true]
            exact ⟨k, hk, pyEq_trans_intlike hI hpe hpk⟩
          have hrec := ih ((skillOf node ctx).1) ((skillOf node ctx).2) hcur2
          simp only [executeFrom, hsl, hN, hI, hvv, Bool.false_eq_true, if_false,
            Bool.not_true]
          exact hrec

/-- Node 1 with the declared output 99, which names no node. -/
def danglingNode : PyVal := .dict [("id", .int 1), ("type", .str "a"),
  ("inputs", .list []), ("outputs", .list [.int 99]), ("params", .dict [])]

/-- Single-node description with the dangling output 99; construction
succeeds (output reachability is never checked at load time). -/
def danglingData : PyVal := .dict [("workflow_id", .str "w"), ("entry", .int 1),
  ("nodes", .list [danglingNode])]

/-- The workflow constructed from `danglingData`. -/
def danglingWf : Workflow :=
  { workflow_id := .str "w", entry := .int 1, nodes := [danglingNode],
    meta := .dict [] }

/-- A skill that always returns 99. -/
def danglingSkill : PyVal → Unit → PyVal × Unit := fun _ c => (.int 99, c)

/-- C1 counterexample: in this validly constructed workflow, the one
taken transition 1 → 99 passes transition validation (99 is among
node 1's declared outputs), no validation is skipped, and yet the run
raises `UnknownNodeError` on a normal path, because the declared output
99 names no node — refuting the claim that the error can only follow a
skipped validation. -/
theorem c1_unknown_node_counterexample :
    mkWorkflow danglingData = .ok danglingWf ∧
    validateNext danglingWf (.int 1) (.int 99) = .ok () ∧
    execute danglingWf danglingSkill 3 () =
      ([.int 1], .err (.valueError "Unknown node id: 99")) :=
  ⟨rfl, rfl, rfl⟩

/-- Witness for C1 (amended): the two-node cycle has all declared
integer outputs among its node ids, and its run raises no
`UnknownNodeError`. -/
theorem c1_no_unknown_node_witness :
    OutcomeNotUnknown (execute cycWf cycSkillOf 5 0).2 :=
  @c1_no_unknown_node_when_closed Nat cycData cycWf cycSkillOf rfl rfl 5 0
